import Mathlib

/-!
Shallow embedding of the tenant control plane of the phishing-backend
repository: the subdomain helpers (src/utils/helpers.js), the tenant
provisioning saga (src/services/tenantService.js, createTenant and
updateTenant) and the tenant connection orchestrator
(src/config/tenantDatabase.js).  Registry state is a pure value threaded
through each operation; the nondeterministic inputs of the source
(generated ids, tokens, the clock, and whether the physical provisioning
step or a close call fails) are explicit parameters.
-/

namespace PhishingBackend

/-! ## Subdomain helpers (src/utils/helpers.js) -/

/-- Model of the per-character effect of JavaScript toLowerCase on the
ASCII range: uppercase A..Z shift down by 32, everything else kept. -/
def jsToLower (c : Char) : Char :=
  if 65 ≤ c.toNat ∧ c.toNat ≤ 90 then Char.ofNat (c.toNat + 32) else c

/-- True for the characters of the class a-z0-9. -/
def isLowerAlnumChar (c : Char) : Bool :=
  (decide (97 ≤ c.toNat) && decide (c.toNat ≤ 122)) ||
    (decide (48 ≤ c.toNat) && decide (c.toNat ≤ 57))

/-- True for the characters of the class a-z0-9 together with the hyphen,
the class kept by the replace step of sanitizeSubdomain. -/
def isSubdomainChar (c : Char) : Bool :=
  isLowerAlnumChar c || decide (c.toNat = 45)

/-- sanitizeSubdomain: toLowerCase, drop every character outside a-z0-9-,
then substring(0, 63). -/
def sanitizeSubdomain (s : String) : String :=
  String.mk (((s.toList.map jsToLower).filter isSubdomainChar).take 63)

/-- Checker for the tail of the DNS-label regex: every character up to the
last one is from a-z0-9-, and the last one is from a-z0-9. -/
def validTail : List Char → Bool
  | [] => false
  | [c] => isLowerAlnumChar c
  | c :: rest => isSubdomainChar c && validTail rest

/-- isValidSubdomain: the test of the regex
    (caret)[a-z0-9]([a-z0-9-] 0 to 61 times [a-z0-9])?(dollar). -/
def isValidSubdomain (s : String) : Bool :=
  match s.toList with
  | [] => false
  | [c] => isLowerAlnumChar c
  | c :: rest => isLowerAlnumChar c && decide (rest.length ≤ 62) && validTail rest

/-- Model of the JavaScript trim (the mongoose trim setter): drop
leading and trailing whitespace. -/
def jsTrim (s : String) : String :=
  String.mk
    (((s.toList.dropWhile (fun c => c.isWhitespace)).reverse.dropWhile
        (fun c => c.isWhitespace)).reverse)

/-- Model of the full-string effect of JavaScript toLowerCase (the
mongoose lowercase setter) on the ASCII range. -/
def jsToLowerStr (s : String) : String :=
  String.mk (s.toList.map jsToLower)

/-- Model of the external validator.isEmail used by the Invitation
schema (the validator npm package; its code is not part of this
repository): exactly one at-sign separating a nonempty local part from
a domain of two or more nonempty dot-separated labels, no whitespace.
The claim theorems depend on it only through hypotheses and through the
concrete values "a@acme.com" (accepted by both) and "bob" (rejected by
both). -/
def validatorIsEmail (s : String) : Bool :=
  match s.toList.splitOn '@' with
  | [lp, dp] =>
    !lp.isEmpty && !dp.isEmpty &&
    lp.all (fun c => !c.isWhitespace) && dp.all (fun c => !c.isWhitespace) &&
    (decide (2 ≤ (dp.splitOn '.').length) && (dp.splitOn '.').all (fun l => !l.isEmpty))
  | _ => false

/-- generateDatabaseName: the store name derived from the tenant id. -/
def generateDatabaseName (tenantId : String) : String :=
  "tenant_" ++ tenantId

/-! ## Registry data model (src/models/master/Tenant.js, Invitation.js) -/

/-- Error thrown by the service layer: ApiError(statusCode, message). -/
structure ApiError where
  statusCode : Nat
  message : String
deriving Repr, DecidableEq

/-- The errors a createTenant call can throw: an ApiError raised by the
service itself, or a mongoose ValidationError raised by a save call when
the schema validators reject the document being inserted. -/
inductive SagaError where
  | api (statusCode : Nat) (message : String)
  | validation (message : String)
deriving Repr, DecidableEq

/-- The fields of a TenantRecord used by the modelled operations.  `id`
stands for the Mongo document id (tenant._id). -/
structure TenantRecord where
  id : String
  tenantId : String
  organizationName : String
  subdomain : String
  databaseName : String
  primaryAdminEmail : String
  status : String
  isActive : Bool
  createdBy : String
deriving Repr, DecidableEq

/-- The fields of an InvitationRecord used by the modelled operations.
`id` stands for the Mongo document id (invitation._id); `tenantRef` for
the tenant._id reference. -/
structure InvitationRecord where
  id : String
  email : String
  tenantRef : String
  invitedBy : String
  role : String
  status : String
  token : String
  expiresAt : Nat
deriving Repr, DecidableEq

/-- The master (registry) database: the two collections the saga writes. -/
structure Registry where
  tenants : List TenantRecord
  invitations : List InvitationRecord
deriving Repr, DecidableEq

/-- The caller-supplied part of createTenant input.  A missing field of
the source (undefined) and an empty field are both modelled as "". -/
structure CreateInput where
  organizationName : String
  subdomain : String
  adminEmail : String
deriving Repr, DecidableEq

/-- The values the source draws from generators and the clock during one
createTenant call: the two fresh Mongo document ids, the tenant id, the
invitation token, and the time of the call in milliseconds. -/
structure GenData where
  tenantObjId : String
  tenantId : String
  invitationId : String
  token : String
  now : Nat
deriving Repr, DecidableEq

/-- The success payload of createTenant, holding both created records. -/
structure CreateSuccess where
  tenant : TenantRecord
  invitation : InvitationRecord
deriving Repr, DecidableEq

/-- Milliseconds in the 7-day invitation validity window. -/
def sevenDaysMs : Nat := 7 * 24 * 60 * 60 * 1000

/-- deleteOne of Mongo on a list: remove the first record matching the
filter, keep the rest. -/
def deleteOneBy {α : Type} (p : α → Bool) : List α → List α
  | [] => []
  | x :: xs => if p x then xs else x :: deleteOneBy p xs

/-! ## The provisioning saga (src/services/tenantService.js) -/

/-- The TenantRecord built by step 6 of createTenant: status trial,
isActive true, databaseName derived from the generated tenant id.  The
trim and lowercase setters of the Tenant schema are applied at
assignment, before validation. -/
def newTenantRecord (inp : CreateInput) (superadminId : String) (gen : GenData) : TenantRecord :=
  { id := gen.tenantObjId
    tenantId := gen.tenantId
    organizationName := jsTrim inp.organizationName
    subdomain := sanitizeSubdomain inp.subdomain
    databaseName := generateDatabaseName gen.tenantId
    primaryAdminEmail := jsToLowerStr (jsTrim inp.adminEmail)
    status := "trial"
    isActive := true
    createdBy := superadminId }

/-- The InvitationRecord built by step 7 of createTenant: status pending,
a fresh token, expiresAt seven days from now.  The trim and lowercase
setters of the Invitation schema are applied to the email. -/
def newInvitationRecord (inp : CreateInput) (superadminId : String) (gen : GenData) :
    InvitationRecord :=
  { id := gen.invitationId
    email := jsToLowerStr (jsTrim inp.adminEmail)
    tenantRef := gen.tenantObjId
    invitedBy := superadminId
    role := "admin"
    status := "pending"
    token := gen.token
    expiresAt := gen.now + sevenDaysMs }

/-- The validators the Tenant schema runs when tenant.save executes
inside the transaction: every required string field nonempty (for the
trimmed organizationName this rejects whitespace-only input), the
subdomain regex, and the status enum.  The superadmin reference is
modelled as an opaque id that must be present. -/
def tenantValidationOk (t : TenantRecord) : Bool :=
  !(t.tenantId == "") && !(t.organizationName == "") && !(t.subdomain == "") &&
    isValidSubdomain t.subdomain && !(t.databaseName == "") &&
    !(t.primaryAdminEmail == "") && !(t.createdBy == "") &&
    ["active", "suspended", "trial", "cancelled", "expired"].contains t.status

/-- The validators the Invitation schema runs when invitation.save
executes inside the transaction: required fields present, the
validator.isEmail check on the (transformed) email, and the role and
status enums. -/
def invitationValidationOk (i : InvitationRecord) : Bool :=
  !(i.email == "") && validatorIsEmail i.email && !(i.tenantRef == "") &&
    !(i.invitedBy == "") && ["admin", "user", "readonly"].contains i.role &&
    ["pending", "accepted", "expired", "revoked"].contains i.status && !(i.token == "")

/-- Phase A of createTenant: the registry transaction (steps 1 to 5 of
the source, lines 43..131): the input guards, then the two inserts,
each of which runs its schema validation and throws a mongoose
ValidationError when it fails.  The draft registry returned on success
is the state the commit publishes; every error branch returns without a
draft, which models the abort discarding the session writes. -/
def phaseA (reg : Registry) (inp : CreateInput) (superadminId : String)
    (gen : GenData) : Except SagaError (Registry × TenantRecord × InvitationRecord) :=
  if inp.organizationName == "" || inp.subdomain == "" || inp.adminEmail == "" then
    .error (.api 400 "Organization name, subdomain, and admin email are required")
  else if !isValidSubdomain (sanitizeSubdomain inp.subdomain) then
    .error (.api 400 "Invalid subdomain format")
  else if reg.tenants.any (fun t => t.subdomain == sanitizeSubdomain inp.subdomain) then
    .error (.api 409 "Subdomain already exists")
  else if reg.invitations.any (fun i => i.email == inp.adminEmail && i.status == "pending") then
    .error (.api 409 "Email already has a pending invitation")
  else if !tenantValidationOk (newTenantRecord inp superadminId gen) then
    .error (.validation "Tenant validation failed")
  else if !invitationValidationOk (newInvitationRecord inp superadminId gen) then
    .error (.validation "Invitation validation failed")
  else
    .ok ({ tenants := reg.tenants ++ [newTenantRecord inp superadminId gen],
           invitations := reg.invitations ++ [newInvitationRecord inp superadminId gen] },
         newTenantRecord inp superadminId gen, newInvitationRecord inp superadminId gen)

/-- createTenant: Phase A inside the transaction, then Phase B (tenant
database creation and schema initialization).  `phaseBFails` says whether
the getTenantConnection/initializeTenantSchema step of the source throws
with message `phaseBMsg`; on that failure the source deletes the tenant
by tenantId and the invitation by its document id, then throws
ApiError(500, ...) carrying the cause. -/
def createTenant (reg : Registry) (inp : CreateInput) (superadminId : String)
    (gen : GenData) (phaseBFails : Bool) (phaseBMsg : String) :
    Registry × Except SagaError CreateSuccess :=
  match phaseA reg inp superadminId gen with
  | .error e => (reg, .error e)
  | .ok (committed, tenant, invitation) =>
    if phaseBFails then
      let rolledBack : Registry :=
        { tenants := deleteOneBy (fun t => t.tenantId == tenant.tenantId) committed.tenants
          invitations := deleteOneBy (fun i => i.id == invitation.id) committed.invitations }
      (rolledBack, .error (.api 500 ("Failed to initialize tenant database: " ++ phaseBMsg)))
    else
      (committed, .ok { tenant := tenant, invitation := invitation })

/-! ## updateTenant (src/services/tenantService.js lines 277..303) -/

/-- The updates object of updateTenant, over the modelled fields.  A
`none` field is absent from the update. -/
structure TenantUpdates where
  tenantId : Option String := none
  databaseName : Option String := none
  createdBy : Option String := none
  organizationName : Option String := none
  subdomain : Option String := none
  primaryAdminEmail : Option String := none
  status : Option String := none
  isActive : Option Bool := none
deriving Repr, DecidableEq

/-- The three delete statements of updateTenant: strip tenantId,
databaseName and createdBy from the updates object. -/
def stripProtected (u : TenantUpdates) : TenantUpdates :=
  { u with tenantId := none, databaseName := none, createdBy := none }

/-- Apply a Mongo set-update to one record: each present field replaces
the stored one. -/
def applySet (t : TenantRecord) (u : TenantUpdates) : TenantRecord :=
  { t with
    tenantId := u.tenantId.getD t.tenantId
    databaseName := u.databaseName.getD t.databaseName
    createdBy := u.createdBy.getD t.createdBy
    organizationName := u.organizationName.getD t.organizationName
    subdomain := u.subdomain.getD t.subdomain
    primaryAdminEmail := u.primaryAdminEmail.getD t.primaryAdminEmail
    status := u.status.getD t.status
    isActive := u.isActive.getD t.isActive }

/-- findOneAndUpdate on the tenants collection: update the first record
with the given tenantId, returning the updated record and the new list. -/
def updateTenantList (tid : String) (u : TenantUpdates) :
    List TenantRecord → Option TenantRecord × List TenantRecord
  | [] => (none, [])
  | t :: rest =>
    if t.tenantId == tid then (some (applySet t u), applySet t u :: rest)
    else
      let r := updateTenantList tid u rest
      (r.1, t :: r.2)

/-- The schema validators that runValidators applies to the fields a set
update touches: the subdomain regex and the status enum. -/
def updatesValid (u : TenantUpdates) : Bool :=
  (match u.subdomain with
   | none => true
   | some s => isValidSubdomain s) &&
  (match u.status with
   | none => true
   | some s => ["active", "suspended", "trial", "cancelled", "expired"].contains s)

/-- updateTenant: strip the protected fields, run the lowercase/trim
setters of the schema on subdomain, validate, and set-update the first
record matching the tenantId. -/
def updateTenant (reg : Registry) (tid : String) (u : TenantUpdates) :
    Registry × Except ApiError TenantRecord :=
  let u1 := stripProtected u
  let u2 := { u1 with subdomain := u1.subdomain.map (fun s => String.mk ((jsTrim s).toList.map jsToLower)) }
  if !updatesValid u2 then
    (reg, .error ⟨500, "Tenant validation failed"⟩)
  else
    match (updateTenantList tid u2 reg.tenants).1 with
    | none => (reg, .error ⟨404, "Tenant not found"⟩)
    | some t => ({ reg with tenants := (updateTenantList tid u2 reg.tenants).2 }, .ok t)

/-! ## The connection orchestrator (src/config/tenantDatabase.js) -/

/-- A cached mongoose connection: its readyState (1 = connected, 0 =
disconnected), the database it points at, and whether a close() call on
it would throw (modelling a failing close at shutdown/eviction). -/
structure Conn where
  readyState : Nat
  dbName : String
  closeFails : Bool
deriving Repr, DecidableEq

/-- The TenantDatabaseManager state: the insertion-ordered connection
cache (a JS Map), the master connection, the cache capacity and the
modelsInitialized flag of the constructor. -/
structure Manager where
  connections : List (String × Conn)
  masterConnection : Option Conn
  maxCachedConnections : Nat
  modelsInitialized : Bool
deriving Repr, DecidableEq

/-- Map.get: the value at the first (and, under the key-uniqueness
invariant, only) occurrence of the key. -/
def mapGet : List (String × Conn) → String → Option Conn
  | [], _ => none
  | (k, v) :: rest, key => if k == key then some v else mapGet rest key

/-- Map.set: replace in place if the key is present (JS Map keeps the
original insertion position), else append at the end. -/
def mapSet : List (String × Conn) → String → Conn → List (String × Conn)
  | [], key, v => [(key, v)]
  | (k, w) :: rest, key, v =>
    if k == key then (key, v) :: rest else (k, w) :: mapSet rest key v

/-- Map.delete: remove the first occurrence of the key. -/
def mapDelete : List (String × Conn) → String → List (String × Conn)
  | [], _ => []
  | (k, w) :: rest, key => if k == key then rest else (k, w) :: mapDelete rest key

/-- getTenantMetadata: findOne on the tenants collection with the filter
tenantId AND isActive true.  Note the filter: a record with
isActive false is invisible to this lookup. -/
def getTenantMetadata (reg : Registry) (tid : String) : Option TenantRecord :=
  reg.tenants.find? (fun t => t.tenantId == tid && t.isActive)

/-- The connection object resolveFresh creates on a cache miss. -/
def mkTenantConn (dbName : String) : Conn :=
  { readyState := 1, dbName := dbName, closeFails := false }

/-- closeTenantConnection: close() the cached connection, then delete it
from the map.  If close() throws, the delete is never reached and the
error propagates with the map unchanged. -/
def closeTenantConnection (m : Manager) (tid : String) : Manager × Except String Unit :=
  match mapGet m.connections tid with
  | none => (m, .ok ())
  | some c =>
    if c.closeFails then (m, .error "close failed")
    else ({ m with connections := mapDelete m.connections tid }, .ok ())

/-- The sequence of states a successful closeTenantConnection passes
through: the initial state, the state after the awaited close() (the
connection is torn down but the map entry is still there), and the state
after the map delete. -/
def closeTenantConnectionStates (m : Manager) (tid : String) : List Manager :=
  match mapGet m.connections tid with
  | none => [m]
  | some c =>
    if c.closeFails then [m]
    else
      let afterClose :=
        { m with connections := mapSet m.connections tid { c with readyState := 0 } }
      let afterDelete :=
        { afterClose with connections := mapDelete afterClose.connections tid }
      [m, afterClose, afterDelete]

/-- cleanupOldestConnection: close the entry at the first key of the map
(the oldest inserted); the try/catch of the source swallows any error. -/
def cleanupOldestConnection (m : Manager) : Manager :=
  match m.connections with
  | [] => m
  | (tid, _) :: _ => (closeTenantConnection m tid).1

/-- The creation path of getTenantConnection after the cache check:
metadata lookup, activity check, connection creation (succeeding exactly
when `connectOk`), cache insertion and the capacity check. -/
def resolveFresh (m : Manager) (reg : Registry) (tid : String) (connectOk : Bool) :
    Manager × Except String Conn :=
  match getTenantMetadata reg tid with
  | none => (m, .error ("Tenant " ++ tid ++ " not found"))
  | some t =>
    if !t.isActive then (m, .error ("Tenant " ++ tid ++ " is not active"))
    else
      let dbName := if t.databaseName == "" then "tenant_" ++ tid else t.databaseName
      if !connectOk then (m, .error "Tenant DB connection failed")
      else
        let conn := mkTenantConn dbName
        let m1 := { m with connections := mapSet m.connections tid conn }
        let m2 :=
          if m1.maxCachedConnections < m1.connections.length then
            cleanupOldestConnection m1
          else m1
        (m2, .ok conn)

/-- getTenantConnection: return a cached connection with readyState 1;
delete a stale cached entry and fall through to creation; on a plain
miss go straight to creation. -/
def getTenantConnection (m : Manager) (reg : Registry) (tid : String) (connectOk : Bool) :
    Manager × Except String Conn :=
  match mapGet m.connections tid with
  | some c =>
    if c.readyState == 1 then (m, .ok c)
    else resolveFresh { m with connections := mapDelete m.connections tid } reg tid connectOk
  | none => resolveFresh m reg tid connectOk

/-- Resolve a list of tenant ids in order, with every connection
creation succeeding, keeping the final manager state. -/
def resolveAll (m : Manager) (reg : Registry) : List String → Manager
  | [] => m
  | tid :: rest => resolveAll (getTenantConnection m reg tid true).1 reg rest

/-- The tenant loop of closeAllConnections: close each cached connection
left to right.  On success the closed connections are marked
disconnected (the map itself is cleared only after the loop); the first
close() that throws aborts the loop, leaving its own entry and every
later entry untouched. -/
def closeLoop : List (String × Conn) → Except (List (String × Conn)) Unit
  | [] => .ok ()
  | (tid, c) :: rest =>
    if c.closeFails then .error ((tid, c) :: rest)
    else
      match closeLoop rest with
      | .ok _ => .ok ()
      | .error rest1 => .error ((tid, { c with readyState := 0 }) :: rest1)

/-- closeAllConnections: close every tenant connection, clear the map,
then close the master connection and reset the flags.  The whole body is
one try/catch that logs and RETHROWS, so the first failing close
propagates to the caller and stops the shutdown sequence. -/
def closeAllConnections (m : Manager) : Manager × Except String Unit :=
  match closeLoop m.connections with
  | .error conns1 => ({ m with connections := conns1 }, .error "close failed")
  | .ok _ =>
    let m1 := { m with connections := [] }
    match m1.masterConnection with
    | none => (m1, .ok ())
    | some mc =>
      if mc.closeFails then (m1, .error "close failed")
      else ({ m1 with masterConnection := none, modelsInitialized := false }, .ok ())

/-- Equality of Except results is decidable when both payload types have
decidable equality; used to evaluate the model on concrete inputs. -/
instance {ε α : Type} [DecidableEq ε] [DecidableEq α] : DecidableEq (Except ε α) := fun a b =>
  match a, b with
  | .error x, .error y =>
    if h : x = y then .isTrue (by rw [h]) else .isFalse (by intro hc; cases hc; exact h rfl)
  | .error _, .ok _ => .isFalse (by intro hc; cases hc)
  | .ok _, .error _ => .isFalse (by intro hc; cases hc)
  | .ok x, .ok y =>
    if h : x = y then .isTrue (by rw [h]) else .isFalse (by intro hc; cases hc; exact h rfl)

/-! ## Lemmas about the subdomain helpers -/

lemma jsToLower_eq_self {c : Char} (h : isSubdomainChar c = true) : jsToLower c = c := by
  unfold isSubdomainChar isLowerAlnumChar at h
  simp only [Bool.or_eq_true, Bool.and_eq_true, decide_eq_true_eq] at h
  unfold jsToLower
  have hn : ¬(65 ≤ c.toNat ∧ c.toNat ≤ 90) := by omega
  simp [hn]

lemma sanitize_chars (s : String) :
    ∀ c ∈ (sanitizeSubdomain s).toList, isSubdomainChar c = true := by
  intro c hc
  have hc2 : c ∈ ((s.toList.map jsToLower).filter isSubdomainChar).take 63 := hc
  exact (List.mem_filter.mp (List.take_subset _ _ hc2)).2

lemma sanitize_length (s : String) : (sanitizeSubdomain s).length ≤ 63 := by
  have : (sanitizeSubdomain s).length
      = (((s.toList.map jsToLower).filter isSubdomainChar).take 63).length := rfl
  rw [this, List.length_take]
  exact Nat.min_le_left _ _

lemma sanitize_fixed_of_subchars (l : List Char)
    (hall : ∀ c ∈ l, isSubdomainChar c = true) (hlen : l.length ≤ 63) :
    sanitizeSubdomain (String.mk l) = String.mk l := by
  unfold sanitizeSubdomain
  have h1 : (String.mk l).toList = l := rfl
  rw [h1]
  have hmap : l.map jsToLower = l := by
    have := List.map_congr_left (fun a ha => jsToLower_eq_self (hall a ha))
    simpa using this
  rw [hmap, List.filter_eq_self.mpr hall, List.take_of_length_le hlen]

lemma sanitizeSubdomain_idem (s : String) :
    sanitizeSubdomain (sanitizeSubdomain s) = sanitizeSubdomain s := by
  have hlen : (((s.toList.map jsToLower).filter isSubdomainChar).take 63).length ≤ 63 := by
    rw [List.length_take]; exact Nat.min_le_left _ _
  exact sanitize_fixed_of_subchars _ (sanitize_chars s) hlen

/-- Claim C10: for every input string, sanitizeSubdomain returns a string
of length at most 63 whose characters are all from a-z0-9-, and it is
idempotent; its result is not guaranteed to pass isValidSubdomain — it
can be empty or begin and end with a hyphen — so the normalized
subdomain must be re-validated before use. -/
theorem sanitizeSubdomain_spec :
    (∀ s : String, (sanitizeSubdomain s).length ≤ 63 ∧
      ∀ c ∈ (sanitizeSubdomain s).toList, isSubdomainChar c = true) ∧
    (∀ s : String, sanitizeSubdomain (sanitizeSubdomain s) = sanitizeSubdomain s) ∧
    (sanitizeSubdomain "!" = "" ∧ isValidSubdomain (sanitizeSubdomain "!") = false) ∧
    (sanitizeSubdomain "-a-" = "-a-" ∧ isValidSubdomain (sanitizeSubdomain "-a-") = false) := by
  refine ⟨fun s => ⟨sanitize_length s, sanitize_chars s⟩, sanitizeSubdomain_idem, ?_, ?_⟩
  · exact ⟨by decide, by decide⟩
  · exact ⟨by decide, by decide⟩

/-! ## Lemmas and claim theorems for the provisioning saga -/

lemma deleteOneBy_append_singleton {α : Type} (p : α → Bool) (xs : List α) (y : α)
    (hxs : ∀ x ∈ xs, p x = false) (hy : p y = true) :
    deleteOneBy p (xs ++ [y]) = xs := by
  induction xs with
  | nil => simp [deleteOneBy, hy]
  | cons a t ih =>
    have ha := hxs a (by simp)
    have ih2 := ih (fun x hx => hxs x (by simp [hx]))
    simp [deleteOneBy, ha, ih2]

lemma nodup_snoc {α : Type} (l : List α) (a : α) (hl : l.Nodup) (ha : a ∉ l) :
    (l ++ [a]).Nodup := by
  rw [List.nodup_append]
  refine ⟨hl, List.nodup_singleton a, ?_⟩
  intro x hx hx2
  simp only [List.mem_singleton] at hx2
  subst hx2
  exact ha hx

/-- Claim C2: whenever any of the Phase A steps 1 to 5 fails before
commit — an input guard, a conflict check, or one of the two inserts
(whose schema validation can reject the document with a mongoose
ValidationError) — the transaction is aborted, the triggering error is
propagated unchanged, and the registry state returned by the call is
exactly the pre-call state. -/
theorem createTenant_phaseA_abort (reg : Registry) (inp : CreateInput) (sid : String)
    (gen : GenData) (pb : Bool) (msg : String) (e : SagaError)
    (h : phaseA reg inp sid gen = .error e) :
    createTenant reg inp sid gen pb msg = (reg, .error e) ∧
    (e = .api 400 "Organization name, subdomain, and admin email are required" ∨
     e = .api 400 "Invalid subdomain format" ∨
     e = .api 409 "Subdomain already exists" ∨
     e = .api 409 "Email already has a pending invitation" ∨
     e = .validation "Tenant validation failed" ∨
     e = .validation "Invitation validation failed") := by
  constructor
  · unfold createTenant
    rw [h]
  · unfold phaseA at h
    split at h
    · cases h; exact Or.inl rfl
    · split at h
      · cases h; exact Or.inr (Or.inl rfl)
      · split at h
        · cases h; exact Or.inr (Or.inr (Or.inl rfl))
        · split at h
          · cases h; exact Or.inr (Or.inr (Or.inr (Or.inl rfl)))
          · split at h
            · cases h; exact Or.inr (Or.inr (Or.inr (Or.inr (Or.inl rfl))))
            · split at h
              · cases h; exact Or.inr (Or.inr (Or.inr (Or.inr (Or.inr rfl))))
              · simp at h

/-- Witness for C2: an empty organization name hits the 400 input guard;
a whitespace-only organization name passes the guard but fails the
trim+required validation run by tenant.save; a non-email adminEmail
passes every guard but fails the isEmail validation run by
invitation.save.  Each time the untouched error comes back and the
registry is unchanged. -/
theorem createTenant_phaseA_abort_witness :
    (createTenant ⟨[], []⟩ ⟨"", "acme", "a@b.cd"⟩ "sa" ⟨"o1", "t1", "i1", "k1", 0⟩ false ""
      = (⟨[], []⟩, .error (.api 400 "Organization name, subdomain, and admin email are required"))) ∧
    (createTenant ⟨[], []⟩ ⟨" ", "acme", "a@b.cd"⟩ "sa" ⟨"o1", "t1", "i1", "k1", 0⟩ false ""
      = (⟨[], []⟩, .error (.validation "Tenant validation failed"))) ∧
    (createTenant ⟨[], []⟩ ⟨"X", "acme", "bob"⟩ "sa" ⟨"o1", "t1", "i1", "k1", 0⟩ false ""
      = (⟨[], []⟩, .error (.validation "Invitation validation failed"))) :=
  ⟨(createTenant_phaseA_abort ⟨[], []⟩ ⟨"", "acme", "a@b.cd"⟩ "sa" ⟨"o1", "t1", "i1", "k1", 0⟩
      false "" (.api 400 "Organization name, subdomain, and admin email are required")
      (by decide)).1,
   (createTenant_phaseA_abort ⟨[], []⟩ ⟨" ", "acme", "a@b.cd"⟩ "sa" ⟨"o1", "t1", "i1", "k1", 0⟩
      false "" (.validation "Tenant validation failed") (by decide)).1,
   (createTenant_phaseA_abort ⟨[], []⟩ ⟨"X", "acme", "bob"⟩ "sa" ⟨"o1", "t1", "i1", "k1", 0⟩
      false "" (.validation "Invitation validation failed") (by decide)).1⟩

/-- Claim C1: when Phase A commits — all its guards pass and both saves
pass their schema validation — and Phase B then fails, the call deletes
the just-committed TenantRecord and InvitationRecord again, so the
registry ends exactly in its pre-call state, with no record of the
attempt, and the call fails with the 500 provisioning error carrying
the underlying cause. -/
theorem createTenant_compensation (reg : Registry) (inp : CreateInput) (sid : String)
    (gen : GenData) (msg : String)
    (h1 : (inp.organizationName == "" || inp.subdomain == "" || inp.adminEmail == "") = false)
    (h2 : isValidSubdomain (sanitizeSubdomain inp.subdomain) = true)
    (h3 : reg.tenants.any (fun t => t.subdomain == sanitizeSubdomain inp.subdomain) = false)
    (h4 : reg.invitations.any (fun i => i.email == inp.adminEmail && i.status == "pending") = false)
    (hv1 : tenantValidationOk (newTenantRecord inp sid gen) = true)
    (hv2 : invitationValidationOk (newInvitationRecord inp sid gen) = true)
    (h5 : ∀ t ∈ reg.tenants, t.tenantId ≠ gen.tenantId)
    (h6 : ∀ i ∈ reg.invitations, i.id ≠ gen.invitationId) :
    createTenant reg inp sid gen true msg
      = (reg, .error (.api 500 ("Failed to initialize tenant database: " ++ msg))) ∧
    (∀ t ∈ (createTenant reg inp sid gen true msg).1.tenants, t.tenantId ≠ gen.tenantId) ∧
    (∀ i ∈ (createTenant reg inp sid gen true msg).1.invitations, i.id ≠ gen.invitationId) := by
  have hmain : createTenant reg inp sid gen true msg
      = (reg, .error (.api 500 ("Failed to initialize tenant database: " ++ msg))) := by
    have ht : deleteOneBy (fun t : TenantRecord => t.tenantId == (newTenantRecord inp sid gen).tenantId)
        (reg.tenants ++ [newTenantRecord inp sid gen]) = reg.tenants :=
      deleteOneBy_append_singleton _ _ _
        (fun x hx => beq_eq_false_iff_ne.mpr (h5 x hx)) (by simp [newTenantRecord])
    have hi : deleteOneBy (fun i : InvitationRecord => i.id == (newInvitationRecord inp sid gen).id)
        (reg.invitations ++ [newInvitationRecord inp sid gen]) = reg.invitations :=
      deleteOneBy_append_singleton _ _ _
        (fun x hx => beq_eq_false_iff_ne.mpr (h6 x hx)) (by simp [newInvitationRecord])
    unfold createTenant phaseA
    rw [h1, h2, h3, h4, hv1, hv2]
    simp only [Bool.not_true, Bool.false_eq_true, if_false, if_true, ht, hi]
  refine ⟨hmain, ?_, ?_⟩
  · rw [hmain]; exact h5
  · rw [hmain]; exact h6

/-- Witness for C1: on an empty registry, a fully valid creation (guards
and both schema validations pass) whose Phase B fails ends with the
empty registry and the 500 error carrying the cause. -/
theorem createTenant_compensation_witness :
    createTenant ⟨[], []⟩ ⟨"Acme", "Acme Corp!", "a@acme.com"⟩ "sa" ⟨"o1", "t1", "i1", "k1", 0⟩
      true "boom"
      = (⟨[], []⟩, .error (.api 500 "Failed to initialize tenant database: boom")) :=
  (createTenant_compensation ⟨[], []⟩ ⟨"Acme", "Acme Corp!", "a@acme.com"⟩ "sa"
    ⟨"o1", "t1", "i1", "k1", 0⟩ "boom" (by decide) (by decide) (by decide) (by decide)
    (by decide) (by decide)
    (by intro t ht; simp at ht) (by intro i hi; simp at hi)).1

/-- Claim C7: a createTenant call (otherwise valid) whose normalized
subdomain equals the subdomain of an existing TenantRecord always fails
with the 409 Conflict and leaves the registry unchanged; and a
successful creation (guards and both schema validations pass) preserves
pairwise distinctness of subdomains and of store names across all
tenants. -/
theorem createTenant_subdomain_uniqueness (reg : Registry) (inp : CreateInput) (sid : String)
    (gen : GenData) (pb : Bool) (msg : String) :
    ((inp.organizationName == "" || inp.subdomain == "" || inp.adminEmail == "") = false →
     isValidSubdomain (sanitizeSubdomain inp.subdomain) = true →
     reg.tenants.any (fun t => t.subdomain == sanitizeSubdomain inp.subdomain) = true →
     createTenant reg inp sid gen pb msg = (reg, .error (.api 409 "Subdomain already exists"))) ∧
    ((inp.organizationName == "" || inp.subdomain == "" || inp.adminEmail == "") = false →
     isValidSubdomain (sanitizeSubdomain inp.subdomain) = true →
     reg.tenants.any (fun t => t.subdomain == sanitizeSubdomain inp.subdomain) = false →
     reg.invitations.any (fun i => i.email == inp.adminEmail && i.status == "pending") = false →
     tenantValidationOk (newTenantRecord inp sid gen) = true →
     invitationValidationOk (newInvitationRecord inp sid gen) = true →
     (reg.tenants.map (fun t => t.subdomain)).Nodup →
     (reg.tenants.map (fun t => t.databaseName)).Nodup →
     (∀ t ∈ reg.tenants, t.databaseName ≠ generateDatabaseName gen.tenantId) →
     ((createTenant reg inp sid gen false msg).2.isOk = true ∧
      ((createTenant reg inp sid gen false msg).1.tenants.map (fun t => t.subdomain)).Nodup ∧
      ((createTenant reg inp sid gen false msg).1.tenants.map (fun t => t.databaseName)).Nodup)) := by
  constructor
  · intro h1 h2 h3
    unfold createTenant phaseA
    rw [h1, h2, h3]
    simp
  · intro h1 h2 h3 h4 hv1 hv2 hsub hdb hfresh
    have hrun : createTenant reg inp sid gen false msg
        = ({ tenants := reg.tenants ++ [newTenantRecord inp sid gen],
             invitations := reg.invitations ++ [newInvitationRecord inp sid gen] },
           .ok { tenant := newTenantRecord inp sid gen,
                 invitation := newInvitationRecord inp sid gen }) := by
      unfold createTenant phaseA
      rw [h1, h2, h3, h4, hv1, hv2]
      simp
    rw [hrun]
    refine ⟨rfl, ?_, ?_⟩
    · have hnotmem : (newTenantRecord inp sid gen).subdomain
          ∉ reg.tenants.map (fun t => t.subdomain) := by
        intro hmem
        obtain ⟨t, htmem, hteq⟩ := List.mem_map.mp hmem
        have := List.any_eq_false.mp h3 t htmem
        simp only [Bool.not_eq_true, beq_eq_false_iff_ne] at this
        exact this hteq
      simpa [List.map_append] using
        nodup_snoc _ ((newTenantRecord inp sid gen).subdomain) hsub hnotmem
    · have hnotmem : (newTenantRecord inp sid gen).databaseName
          ∉ reg.tenants.map (fun t => t.databaseName) := by
        intro hmem
        obtain ⟨t, htmem, hteq⟩ := List.mem_map.mp hmem
        exact hfresh t htmem hteq
      simpa [List.map_append] using
        nodup_snoc _ ((newTenantRecord inp sid gen).databaseName) hdb hnotmem

/-- Witness for C7: both halves at concrete inputs — a duplicated
subdomain is rejected with 409 on a one-tenant registry, and a creation
on the empty registry keeps subdomains and store names distinct. -/
theorem createTenant_subdomain_uniqueness_witness :
    (createTenant
        ⟨[⟨"o0", "t0", "Acme", "acmecorp", "tenant_t0", "a@acme.com", "trial", true, "sa"⟩], []⟩
        ⟨"Acme", "Acme Corp!", "b@acme.com"⟩ "sa" ⟨"o1", "t1", "i1", "k1", 0⟩ false ""
      = (⟨[⟨"o0", "t0", "Acme", "acmecorp", "tenant_t0", "a@acme.com", "trial", true, "sa"⟩], []⟩,
         .error (.api 409 "Subdomain already exists"))) ∧
    ((createTenant ⟨[], []⟩ ⟨"Acme", "Acme Corp!", "a@acme.com"⟩ "sa" ⟨"o1", "t1", "i1", "k1", 0⟩
        false "").2.isOk = true ∧
     ((createTenant ⟨[], []⟩ ⟨"Acme", "Acme Corp!", "a@acme.com"⟩ "sa" ⟨"o1", "t1", "i1", "k1", 0⟩
        false "").1.tenants.map (fun t => t.subdomain)).Nodup ∧
     ((createTenant ⟨[], []⟩ ⟨"Acme", "Acme Corp!", "a@acme.com"⟩ "sa" ⟨"o1", "t1", "i1", "k1", 0⟩
        false "").1.tenants.map (fun t => t.databaseName)).Nodup) := by
  constructor
  · exact (createTenant_subdomain_uniqueness
      ⟨[⟨"o0", "t0", "Acme", "acmecorp", "tenant_t0", "a@acme.com", "trial", true, "sa"⟩], []⟩
      ⟨"Acme", "Acme Corp!", "b@acme.com"⟩ "sa" ⟨"o1", "t1", "i1", "k1", 0⟩ false "").1
      (by decide) (by decide) (by decide)
  · exact (createTenant_subdomain_uniqueness ⟨[], []⟩ ⟨"Acme", "Acme Corp!", "a@acme.com"⟩ "sa"
      ⟨"o1", "t1", "i1", "k1", 0⟩ false "").2
      (by decide) (by decide) (by decide) (by decide) (by decide) (by decide) (by decide)
      (by decide) (by intro t ht; simp at ht)

/-- Counterexample for C9: sanitizeSubdomain maps "Acme Corp!" to
"acmecorp" — disallowed characters are removed, not replaced by hyphens —
so the call neither normalizes to "acme-corp" nor rejects the input. -/
theorem sanitize_acme_not_hyphenated :
    sanitizeSubdomain "Acme Corp!" = "acmecorp" ∧
    sanitizeSubdomain "Acme Corp!" ≠ "acme-corp" ∧
    isValidSubdomain (sanitizeSubdomain "Acme Corp!") = true := by
  refine ⟨by decide, by decide, by decide⟩

/-- Claim C9 (amended): the Acme call normalizes the subdomain to
"acmecorp", creates a TenantRecord with status trial and an
InvitationRecord with status pending expiring exactly seven days after
creation time; a second call with the same adminEmail while the
invitation is pending fails with the 409 Conflict and changes nothing. -/
theorem createTenant_acme_scenario :
    ((createTenant ⟨[], []⟩ ⟨"Acme", "Acme Corp!", "a@acme.com"⟩ "op1"
        ⟨"o1", "t1", "i1", "k1", 1000⟩ false "").2.toOption.map (fun r =>
          (r.tenant.subdomain, r.tenant.status, r.invitation.status, r.invitation.expiresAt))
      = some ("acmecorp", "trial", "pending", 1000 + sevenDaysMs)) ∧
    (createTenant
        (createTenant ⟨[], []⟩ ⟨"Acme", "Acme Corp!", "a@acme.com"⟩ "op1"
          ⟨"o1", "t1", "i1", "k1", 1000⟩ false "").1
        ⟨"Beta", "beta", "a@acme.com"⟩ "op1" ⟨"o2", "t2", "i2", "k2", 2000⟩ false ""
      = ((createTenant ⟨[], []⟩ ⟨"Acme", "Acme Corp!", "a@acme.com"⟩ "op1"
          ⟨"o1", "t1", "i1", "k1", 1000⟩ false "").1,
         .error (.api 409 "Email already has a pending invitation"))) := by
  refine ⟨by decide, by decide⟩

/-! ## Claim theorems for updateTenant -/

/-- Counterexample for C6: updateTenant strips only tenantId,
databaseName and createdBy, so an updates object carrying a (valid)
subdomain changes the stored subdomain of an existing TenantRecord. -/
theorem updateTenant_subdomain_mutable :
    (updateTenant
        ⟨[⟨"o6", "t6", "Acme", "acme", "tenant_t6", "a@b.c", "trial", true, "sa"⟩], []⟩
        "t6" { subdomain := some "other" }).1.tenants
      = [⟨"o6", "t6", "Acme", "other", "tenant_t6", "a@b.c", "trial", true, "sa"⟩] := by
  decide

lemma updateTenantList_frame (tid : String) (u : TenantUpdates)
    (h1 : u.tenantId = none) (h2 : u.databaseName = none) (h3 : u.createdBy = none) :
    ∀ l : List TenantRecord,
      List.Forall₂ (fun a b => a.tenantId = b.tenantId ∧ a.databaseName = b.databaseName ∧
        a.createdBy = b.createdBy) l (updateTenantList tid u l).2 := by
  intro l
  induction l with
  | nil => exact List.Forall₂.nil
  | cons t rest ih =>
    unfold updateTenantList
    by_cases ht : (t.tenantId == tid) = true
    · simp only [ht, if_true]
      refine List.Forall₂.cons ?_ (List.forall₂_same.mpr (fun x _ => ⟨rfl, rfl, rfl⟩))
      simp [applySet, h1, h2, h3]
    · simp only [Bool.not_eq_true] at ht
      simp only [ht, Bool.false_eq_true, if_false]
      exact List.Forall₂.cons ⟨rfl, rfl, rfl⟩ ih

/-- Claim C6 (amended): updateTenant never changes the tenantId,
databaseName or createdBy of any stored TenantRecord, for every updates
object (those fields are stripped before the set update); the subdomain
is not among the stripped fields and CAN be changed by updateTenant. -/
theorem updateTenant_protected_fields (reg : Registry) (tid : String) (u : TenantUpdates) :
    List.Forall₂ (fun a b => a.tenantId = b.tenantId ∧ a.databaseName = b.databaseName ∧
      a.createdBy = b.createdBy) reg.tenants (updateTenant reg tid u).1.tenants := by
  have hrefl : List.Forall₂ (fun a b : TenantRecord => a.tenantId = b.tenantId ∧
      a.databaseName = b.databaseName ∧ a.createdBy = b.createdBy) reg.tenants reg.tenants :=
    List.forall₂_same.mpr (fun x _ => ⟨rfl, rfl, rfl⟩)
  simp only [updateTenant]
  split
  · exact hrefl
  · split
    · exact hrefl
    · exact updateTenantList_frame tid _ rfl rfl rfl reg.tenants

/-! ## Lemmas about the cache map -/

lemma mapGet_eq_none_of_not_mem (l : List (String × Conn)) (k : String)
    (h : k ∉ l.map Prod.fst) : mapGet l k = none := by
  induction l with
  | nil => rfl
  | cons p rest ih =>
    have hk : ¬(p.1 == k) = true := by
      simp only [beq_iff_eq]
      intro he
      exact h (by simp [he])
    simp only [mapGet]
    rw [if_neg hk]
    exact ih (fun hm => h (by simp [hm]))

lemma mapGet_mapSet_self (l : List (String × Conn)) (k : String) (v : Conn) :
    mapGet (mapSet l k v) k = some v := by
  induction l with
  | nil => simp [mapSet, mapGet]
  | cons p rest ih =>
    by_cases hk : (p.1 == k) = true
    · simp [mapSet, hk, mapGet]
    · simp only [Bool.not_eq_true] at hk
      simp [mapSet, hk, mapGet, ih]

lemma mapDelete_mapSet (l : List (String × Conn)) (k : String) (v : Conn) :
    mapDelete (mapSet l k v) k = mapDelete l k := by
  induction l with
  | nil => simp [mapSet, mapDelete]
  | cons p rest ih =>
    by_cases hk : (p.1 == k) = true
    · simp [mapSet, hk, mapDelete]
    · simp only [Bool.not_eq_true] at hk
      simp [mapSet, hk, mapDelete, ih]

lemma mapGet_mapDelete_self (l : List (String × Conn)) (k : String)
    (hnd : (l.map Prod.fst).Nodup) : mapGet (mapDelete l k) k = none := by
  induction l with
  | nil => rfl
  | cons p rest ih =>
    simp only [List.map_cons, List.nodup_cons] at hnd
    by_cases hk : (p.1 == k) = true
    · simp only [mapDelete, hk, if_true]
      have : k ∉ rest.map Prod.fst := by
        rw [← beq_iff_eq.mp hk]
        exact hnd.1
      exact mapGet_eq_none_of_not_mem rest k this
    · simp only [Bool.not_eq_true] at hk
      simp only [mapDelete, hk, Bool.false_eq_true, if_false, mapGet]
      exact ih hnd.2

/-! ## Claim theorems for the orchestrator -/

/-- Claim C3 evaluated at the failing input: on a cache miss for a
tenant whose TenantRecord exists with isActive = false, the lookup
filter of getTenantMetadata (tenantId AND isActive true) returns
nothing, so the call fails with the NotFound error message, not with the
distinct inactive-tenant error the source has a branch for; an
already-cached ready handle for the same inactive tenant is still
returned untouched. -/
theorem getTenantConnection_inactive_not_found :
    (getTenantConnection ⟨[], none, 50, true⟩
        ⟨[⟨"o3", "t1", "Org", "org", "tenant_t1", "a@b.c", "suspended", false, "sa"⟩], []⟩
        "t1" true).2 = .error "Tenant t1 not found" ∧
    (getTenantConnection ⟨[], none, 50, true⟩
        ⟨[⟨"o3", "t1", "Org", "org", "tenant_t1", "a@b.c", "suspended", false, "sa"⟩], []⟩
        "t1" true).2 ≠ .error "Tenant t1 is not active" ∧
    getTenantConnection ⟨[("t1", mkTenantConn "tenant_t1")], none, 50, true⟩
        ⟨[⟨"o3", "t1", "Org", "org", "tenant_t1", "a@b.c", "suspended", false, "sa"⟩], []⟩
        "t1" true
      = (⟨[("t1", mkTenantConn "tenant_t1")], none, 50, true⟩, .ok (mkTenantConn "tenant_t1")) := by
  refine ⟨by decide, by decide, by decide⟩

/-- Counterexample for C5: in the middle state of an eviction (after
the awaited close, before the map delete) the cache still maps the
evicted tenant id to its connection, now with readyState 0 — the handle
is observable while being torn down, so removal does NOT precede close. -/
theorem eviction_closes_before_removal :
    (closeTenantConnectionStates ⟨[("t1", mkTenantConn "tenant_t1")], none, 50, true⟩ "t1")[1]?
      = some ⟨[("t1", ⟨0, "tenant_t1", false⟩)], none, 50, true⟩ ∧
    mapGet [("t1", (⟨0, "tenant_t1", false⟩ : Conn))] "t1" = some ⟨0, "tenant_t1", false⟩ := by
  refine ⟨by decide, by decide⟩

/-- Claim C5 (amended): eviction closes the handle FIRST and removes the
cache entry only afterwards: a successful closeTenantConnection passes
through an intermediate state in which the cache still holds the entry
with its connection torn down (readyState 0), and only the final state
has the entry removed. -/
theorem eviction_close_then_remove (m : Manager) (tid : String) (c : Conn)
    (hget : mapGet m.connections tid = some c)
    (hcf : c.closeFails = false)
    (hnd : (m.connections.map Prod.fst).Nodup) :
    closeTenantConnectionStates m tid
      = [m,
         { m with connections := mapSet m.connections tid { c with readyState := 0 } },
         { m with connections := mapDelete (mapSet m.connections tid { c with readyState := 0 }) tid }] ∧
    mapGet (mapSet m.connections tid { c with readyState := 0 }) tid
      = some { c with readyState := 0 } ∧
    mapGet (mapDelete (mapSet m.connections tid { c with readyState := 0 }) tid) tid = none ∧
    (closeTenantConnection m tid).1
      = { m with connections := mapDelete (mapSet m.connections tid { c with readyState := 0 }) tid } := by
  refine ⟨?_, mapGet_mapSet_self _ _ _, ?_, ?_⟩
  · unfold closeTenantConnectionStates
    rw [hget]
    simp [hcf]
  · rw [mapDelete_mapSet]
    exact mapGet_mapDelete_self _ _ hnd
  · unfold closeTenantConnection
    rw [hget]
    simp [hcf, mapDelete_mapSet]

/-- Witness for the amended C5 at a one-entry cache. -/
theorem eviction_close_then_remove_witness :
    closeTenantConnectionStates ⟨[("t1", mkTenantConn "tenant_t1")], none, 50, true⟩ "t1"
      = [⟨[("t1", mkTenantConn "tenant_t1")], none, 50, true⟩,
         ⟨[("t1", ⟨0, "tenant_t1", false⟩)], none, 50, true⟩,
         ⟨[], none, 50, true⟩] :=
  ((eviction_close_then_remove ⟨[("t1", mkTenantConn "tenant_t1")], none, 50, true⟩ "t1"
      (mkTenantConn "tenant_t1") (by decide) (by decide) (by decide)).1)

/-- Counterexample for C8: a close() that throws on the first cached
handle makes closeAllConnections raise the error to its caller, with the
second cached handle never closed (still readyState 1 in the cache) and
the master handle never closed. -/
theorem closeAllConnections_can_raise :
    closeAllConnections ⟨[("x", ⟨1, "tenant_x", true⟩), ("y", mkTenantConn "tenant_y")],
        some (mkTenantConn "master"), 50, true⟩
      = (⟨[("x", ⟨1, "tenant_x", true⟩), ("y", mkTenantConn "tenant_y")],
          some (mkTenantConn "master"), 50, true⟩, .error "close failed") := by
  decide

lemma closeLoop_ok (l : List (String × Conn)) (h : ∀ p ∈ l, p.2.closeFails = false) :
    closeLoop l = .ok () := by
  induction l with
  | nil => rfl
  | cons q rest ih =>
    have hq := h q (by simp)
    have ih2 := ih (fun p hp => h p (by simp [hp]))
    cases q with
    | mk qk qc =>
      have hq2 : qc.closeFails = false := hq
      simp [closeLoop, hq2, ih2]

lemma closeLoop_error (l : List (String × Conn)) (h : ∃ p ∈ l, p.2.closeFails = true) :
    ∃ l1, closeLoop l = .error l1 := by
  induction l with
  | nil =>
    obtain ⟨p, hp, _⟩ := h
    cases hp
  | cons q rest ih =>
    by_cases hq : q.2.closeFails = true
    · refine ⟨q :: rest, ?_⟩
      cases q with
      | mk qk qc => simp only [closeLoop]; rw [if_pos hq]
    · simp only [Bool.not_eq_true] at hq
      obtain ⟨p, hp, hpc⟩ := h
      rcases List.mem_cons.mp hp with rfl | hmem
      · rw [hq] at hpc; cases hpc
      · obtain ⟨l1, hl1⟩ := ih ⟨p, hmem, hpc⟩
        cases q with
        | mk qk qc =>
          have hq2 : qc.closeFails = false := hq
          refine ⟨(qk, { qc with readyState := 0 }) :: l1, ?_⟩
          simp only [closeLoop]
          rw [if_neg (by simp [hq2]), hl1]

/-- Claim C8 (amended): closeAllConnections closes every cached handle
and the master handle and succeeds when no close fails, but any close()
error is propagated to the caller (the shared try/catch logs and
rethrows), aborting the loop so the remaining handles are not closed. -/
theorem closeAllConnections_spec (m : Manager) :
    ((∀ p ∈ m.connections, p.2.closeFails = false) →
     (∀ c, m.masterConnection = some c → c.closeFails = false) →
     ((closeAllConnections m).2 = .ok () ∧
      (closeAllConnections m).1.connections = [] ∧
      (closeAllConnections m).1.masterConnection = none)) ∧
    (∀ p ∈ m.connections, p.2.closeFails = true →
      ∃ s, (closeAllConnections m).2 = .error s) := by
  constructor
  · intro hconns hmc
    unfold closeAllConnections
    rw [closeLoop_ok m.connections hconns]
    cases hm : m.masterConnection with
    | none => exact ⟨rfl, rfl, rfl⟩
    | some mc =>
      have := hmc mc hm
      simp [this]
  · intro p hp hpc
    obtain ⟨l1, hl1⟩ := closeLoop_error m.connections ⟨p, hp, hpc⟩
    refine ⟨"close failed", ?_⟩
    unfold closeAllConnections
    rw [hl1]

/-- Witness for the amended C8: the all-success path closes everything
on a concrete two-entry cache, and a failing close on a one-entry cache
makes the call return an error. -/
theorem closeAllConnections_spec_witness :
    ((closeAllConnections ⟨[("a", mkTenantConn "tenant_a"), ("b", mkTenantConn "tenant_b")],
        some (mkTenantConn "master"), 50, true⟩).2 = .ok () ∧
     (closeAllConnections ⟨[("a", mkTenantConn "tenant_a"), ("b", mkTenantConn "tenant_b")],
        some (mkTenantConn "master"), 50, true⟩).1.connections = [] ∧
     (closeAllConnections ⟨[("a", mkTenantConn "tenant_a"), ("b", mkTenantConn "tenant_b")],
        some (mkTenantConn "master"), 50, true⟩).1.masterConnection = none) ∧
    (∃ s, (closeAllConnections ⟨[("x", ⟨1, "tenant_x", true⟩)], none, 50, true⟩).2 = .error s) := by
  constructor
  · exact (closeAllConnections_spec
      ⟨[("a", mkTenantConn "tenant_a"), ("b", mkTenantConn "tenant_b")],
        some (mkTenantConn "master"), 50, true⟩).1
      (by decide) (by intro c hc; cases hc; rfl)
  · exact (closeAllConnections_spec ⟨[("x", ⟨1, "tenant_x", true⟩)], none, 50, true⟩).2
      ("x", ⟨1, "tenant_x", true⟩) (by simp) rfl

/-! ## Capacity eviction: lemmas and the claim theorem -/

/-- The last `n` elements of a list. -/
def lastN {α : Type} (n : Nat) (l : List α) : List α := l.drop (l.length - n)

lemma lastN_of_length_le {α : Type} (n : Nat) (l : List α) (h : l.length ≤ n) :
    lastN n l = l := by
  unfold lastN
  have h0 : l.length - n = 0 := by omega
  rw [h0, List.drop_zero]

lemma lastN_cons_of_le {α : Type} (n : Nat) (x : α) (l : List α) (h : n ≤ l.length) :
    lastN n (x :: l) = lastN n l := by
  unfold lastN
  have h1 : (x :: l).length - n = (l.length - n) + 1 := by
    simp only [List.length_cons]
    omega
  rw [h1, List.drop_succ_cons]

lemma mapSet_append_of_not_mem (l : List (String × Conn)) (k : String) (v : Conn)
    (h : k ∉ l.map Prod.fst) : mapSet l k v = l ++ [(k, v)] := by
  induction l with
  | nil => rfl
  | cons p rest ih =>
    have hk : (p.1 == k) = false := by
      simp only [beq_eq_false_iff_ne]
      intro he
      exact h (by simp [he])
    simp only [mapSet, hk, Bool.false_eq_true, if_false, List.cons_append]
    rw [ih (fun hm => h (by simp [hm]))]

/-- One successful resolution of a tenant id absent from the cache: the
new connection is appended at the end of the insertion order, and, when
the cache was already full, the head entry (the oldest inserted) is
closed and removed. -/
lemma getTenantConnection_fresh (m : Manager) (reg : Registry) (tid : String)
    (hmem : tid ∉ m.connections.map Prod.fst)
    (hgood : ∀ p ∈ m.connections, p.2.readyState = 1 ∧ p.2.closeFails = false)
    (hcap : 0 < m.maxCachedConnections)
    (hmeta : (getTenantMetadata reg tid).isSome = true) :
    ∃ c : Conn, c.readyState = 1 ∧ c.closeFails = false ∧
      (getTenantConnection m reg tid true).1
        = { m with connections :=
            if m.maxCachedConnections ≤ m.connections.length
            then m.connections.tail ++ [(tid, c)]
            else m.connections ++ [(tid, c)] } := by
  obtain ⟨t, ht⟩ := Option.isSome_iff_exists.mp hmeta
  have hfind : reg.tenants.find? (fun t => t.tenantId == tid && t.isActive) = some t := ht
  have hact : t.isActive = true := by
    have h2 := List.find?_some hfind
    simp only [Bool.and_eq_true] at h2
    exact h2.2
  refine ⟨mkTenantConn (if t.databaseName == "" then "tenant_" ++ tid else t.databaseName),
    rfl, rfl, ?_⟩
  unfold getTenantConnection
  rw [mapGet_eq_none_of_not_mem _ _ hmem]
  unfold resolveFresh
  rw [ht]
  simp only [hact, Bool.not_true, Bool.false_eq_true, if_false]
  rw [mapSet_append_of_not_mem _ _ _ hmem]
  simp only [List.length_append, List.length_singleton]
  by_cases hc : m.maxCachedConnections ≤ m.connections.length
  · rw [if_pos (by omega : m.maxCachedConnections < m.connections.length + 1), if_pos hc]
    cases hconn : m.connections with
    | nil =>
      rw [hconn] at hc
      simp only [List.length_nil] at hc
      omega
    | cons p restC =>
      obtain ⟨k0, c0⟩ := p
      have hcf : c0.closeFails = false := (hgood (k0, c0) (by rw [hconn]; simp)).2
      unfold cleanupOldestConnection
      simp only [List.cons_append]
      unfold closeTenantConnection
      simp only [mapGet, beq_self_eq_true, if_true, hcf, Bool.false_eq_true, if_false,
        mapDelete, List.tail_cons]
  · rw [if_neg (by omega : ¬ m.maxCachedConnections < m.connections.length + 1), if_neg hc]

/-- Invariant of a run of successful resolutions of pairwise-distinct,
resolvable, uncached tenant ids: the cache keys are exactly the last
`capacity` elements of (previous keys ++ processed ids), every cached
connection is live, and the cache never exceeds capacity. -/
lemma resolveAll_spec (reg : Registry) :
    ∀ (tids : List String) (m : Manager),
      0 < m.maxCachedConnections →
      (∀ p ∈ m.connections, p.2.readyState = 1 ∧ p.2.closeFails = false) →
      m.connections.length ≤ m.maxCachedConnections →
      tids.Nodup →
      (∀ tid ∈ tids, tid ∉ m.connections.map Prod.fst) →
      (∀ tid ∈ tids, (getTenantMetadata reg tid).isSome = true) →
      ((resolveAll m reg tids).connections.map Prod.fst
          = lastN m.maxCachedConnections (m.connections.map Prod.fst ++ tids) ∧
       (∀ p ∈ (resolveAll m reg tids).connections, p.2.readyState = 1 ∧ p.2.closeFails = false) ∧
       (resolveAll m reg tids).connections.length ≤ m.maxCachedConnections ∧
       (resolveAll m reg tids).maxCachedConnections = m.maxCachedConnections) := by
  intro tids
  induction tids with
  | nil =>
    intro m hcap hgood hlen _ _ _
    refine ⟨?_, hgood, hlen, rfl⟩
    rw [List.append_nil, lastN_of_length_le _ _ (by rw [List.length_map]; exact hlen)]
    rfl
  | cons tid rest ih =>
    intro m hcap hgood hlen hnd hfresh hmeta
    obtain ⟨c, hc1, hc2, hm1⟩ := getTenantConnection_fresh m reg tid
      (hfresh tid (by simp)) hgood hcap (hmeta tid (by simp))
    have hra : resolveAll m reg (tid :: rest)
        = resolveAll (getTenantConnection m reg tid true).1 reg rest := rfl
    rw [hra, hm1]
    by_cases hfull : m.maxCachedConnections ≤ m.connections.length
    · rw [if_pos hfull] at hm1 ⊢
      cases hconn : m.connections with
      | nil =>
        rw [hconn] at hfull
        simp only [List.length_nil] at hfull
        omega
      | cons p restC =>
        have hgood2 : ∀ q ∈ restC ++ [(tid, c)], q.2.readyState = 1 ∧ q.2.closeFails = false := by
          intro q hq
          rcases List.mem_append.mp hq with hq1 | hq2
          · exact hgood q (by rw [hconn]; simp [hq1])
          · simp only [List.mem_singleton] at hq2
            subst hq2
            exact ⟨hc1, hc2⟩
        have hlen2 : (restC ++ [(tid, c)]).length ≤ m.maxCachedConnections := by
          simp only [List.length_append, List.length_singleton]
          have : m.connections.length = restC.length + 1 := by rw [hconn]; simp
          omega
        have hfresh2 : ∀ x ∈ rest, x ∉ (restC ++ [(tid, c)]).map Prod.fst := by
          intro x hx hmem2
          simp only [List.map_append, List.map_singleton, List.mem_append,
            List.mem_singleton] at hmem2
          rcases hmem2 with hmem2 | hmem2
          · exact hfresh x (by simp [hx]) (by rw [hconn]; simp [hmem2])
          · rw [hmem2] at hx
            exact (List.nodup_cons.mp hnd).1 hx
        have ihr := ih { m with connections := restC ++ [(tid, c)] } hcap hgood2 hlen2
          (List.nodup_cons.mp hnd).2 hfresh2 (fun x hx => hmeta x (by simp [hx]))
        simp only [List.tail_cons]
        refine ⟨?_, ihr.2.1, ihr.2.2.1, ihr.2.2.2⟩
        rw [ihr.1]
        simp only [List.map_append, List.map_singleton, List.map_cons, List.map_nil,
          List.cons_append, List.append_assoc, List.singleton_append, List.nil_append]
        rw [lastN_cons_of_le]
        rw [hconn] at hfull
        simp only [List.length_append, List.length_cons, List.length_map] at hfull ⊢
        omega
    · rw [if_neg hfull] at hm1 ⊢
      have hgood2 : ∀ q ∈ m.connections ++ [(tid, c)],
          q.2.readyState = 1 ∧ q.2.closeFails = false := by
        intro q hq
        rcases List.mem_append.mp hq with hq1 | hq2
        · exact hgood q hq1
        · simp only [List.mem_singleton] at hq2
          subst hq2
          exact ⟨hc1, hc2⟩
      have hlen2 : (m.connections ++ [(tid, c)]).length ≤ m.maxCachedConnections := by
        simp only [List.length_append, List.length_singleton]
        omega
      have hfresh2 : ∀ x ∈ rest, x ∉ (m.connections ++ [(tid, c)]).map Prod.fst := by
        intro x hx hmem2
        simp only [List.map_append, List.map_singleton, List.mem_append,
          List.mem_singleton] at hmem2
        rcases hmem2 with hmem2 | hmem2
        · exact hfresh x (by simp [hx]) hmem2
        · rw [hmem2] at hx
          exact (List.nodup_cons.mp hnd).1 hx
      have ihr := ih { m with connections := m.connections ++ [(tid, c)] } hcap hgood2 hlen2
        (List.nodup_cons.mp hnd).2 hfresh2 (fun x hx => hmeta x (by simp [hx]))
      refine ⟨?_, ihr.2.1, ihr.2.2.1, ihr.2.2.2⟩
      rw [ihr.1]
      simp only [List.map_append, List.map_singleton]
      rw [List.append_assoc]
      rfl

/-- Claim C4: starting from an empty cache of capacity `cap`, resolving
`cap + k` pairwise-distinct resolvable tenant ids leaves exactly `cap`
cached connections — the last `cap` inserted, in insertion order — and
the `k` earliest-inserted tenant ids are no longer cached, so their next
resolution goes through full re-creation. -/
theorem cache_capacity_eviction (reg : Registry) (tids : List String) (cap k : Nat)
    (master : Option Conn) (mi : Bool)
    (hcap : 0 < cap) (hnodup : tids.Nodup)
    (hres : ∀ tid ∈ tids, (getTenantMetadata reg tid).isSome = true)
    (hlen : tids.length = cap + k) :
    (resolveAll ⟨[], master, cap, mi⟩ reg tids).connections.length = cap ∧
    (resolveAll ⟨[], master, cap, mi⟩ reg tids).connections.map Prod.fst = tids.drop k ∧
    (∀ tid ∈ tids.take k,
      mapGet (resolveAll ⟨[], master, cap, mi⟩ reg tids).connections tid = none) := by
  have hspec := resolveAll_spec reg tids ⟨[], master, cap, mi⟩ hcap
    (by intro p hp; cases hp) (by simp) hnodup
    (by intro x hx h; cases h) hres
  have hkeys : (resolveAll ⟨[], master, cap, mi⟩ reg tids).connections.map Prod.fst
      = tids.drop k := by
    have h1 := hspec.1
    simp only [List.map_nil, List.nil_append] at h1
    rw [h1]
    unfold lastN
    rw [hlen]
    congr 1
    omega
  have hlength : (resolveAll ⟨[], master, cap, mi⟩ reg tids).connections.length = cap := by
    have := congrArg List.length hkeys
    simp only [List.length_map, List.length_drop] at this
    omega
  refine ⟨hlength, hkeys, ?_⟩
  intro tid htid
  apply mapGet_eq_none_of_not_mem
  rw [hkeys]
  intro hdrop
  have hsplit : (tids.take k ++ tids.drop k).Nodup := by
    rw [List.take_append_drop]
    exact hnodup
  have hdisj := (List.nodup_append.mp hsplit).2.2
  exact hdisj htid hdrop

/-- Witness for C4: capacity 2, three distinct tenants — the cache ends
with exactly the last two, and the first requires re-creation. -/
theorem cache_capacity_eviction_witness :
    (resolveAll ⟨[], none, 2, true⟩
        ⟨[⟨"oa", "a", "A", "a", "tenant_a", "e", "trial", true, "sa"⟩,
          ⟨"ob", "b", "B", "b", "tenant_b", "e", "trial", true, "sa"⟩,
          ⟨"oc", "c", "C", "c", "tenant_c", "e", "trial", true, "sa"⟩], []⟩
        ["a", "b", "c"]).connections.length = 2 ∧
    (resolveAll ⟨[], none, 2, true⟩
        ⟨[⟨"oa", "a", "A", "a", "tenant_a", "e", "trial", true, "sa"⟩,
          ⟨"ob", "b", "B", "b", "tenant_b", "e", "trial", true, "sa"⟩,
          ⟨"oc", "c", "C", "c", "tenant_c", "e", "trial", true, "sa"⟩], []⟩
        ["a", "b", "c"]).connections.map Prod.fst = ["b", "c"] ∧
    (∀ tid ∈ ["a", "b", "c"].take 1,
      mapGet (resolveAll ⟨[], none, 2, true⟩
        ⟨[⟨"oa", "a", "A", "a", "tenant_a", "e", "trial", true, "sa"⟩,
          ⟨"ob", "b", "B", "b", "tenant_b", "e", "trial", true, "sa"⟩,
          ⟨"oc", "c", "C", "c", "tenant_c", "e", "trial", true, "sa"⟩], []⟩
        ["a", "b", "c"]).connections tid = none) := by
  have h := cache_capacity_eviction
    ⟨[⟨"oa", "a", "A", "a", "tenant_a", "e", "trial", true, "sa"⟩,
      ⟨"ob", "b", "B", "b", "tenant_b", "e", "trial", true, "sa"⟩,
      ⟨"oc", "c", "C", "c", "tenant_c", "e", "trial", true, "sa"⟩], []⟩
    ["a", "b", "c"] 2 1 none true (by decide) (by decide) (by decide) (by decide)
  exact ⟨h.1, by rw [h.2.1]; rfl, h.2.2⟩

end PhishingBackend
